import Mathlib

/-!
Watchman: verification of the job-monitoring core.

Shallow embedding of the Watchman repository's core logic:

* `internal/database/sqlserver.go` — the include/exclude job-name filter
  (`matchPattern`, `matchesFilter`) and the failed-jobs query;
* `internal/jobs` (monitor) — per-server check (`checkSingleServer`),
  sequential and parallel fan-out (`checkSequential`, `checkParallel`),
  aggregation (`aggregateResults`, `generateSummary`) and `CheckAll`;
* `internal/scheduler/scheduler.go` — fire-time parsing (`parseTime`),
  `Start`, `NextRun` and the retry loop `runCheck`.

External effects are modelled by oracles: a `Prober` records, per server,
whether `database.New` succeeds, whether `Ping` succeeds, and which raw
rows the failed-jobs query returns (`none` = query error).  Wall-clock
values (timestamps, durations, sleeps) are outside the embedding; fields
holding them are omitted.  Go `string` is byte-based while Lean `String`
is `Char`-based; the two agree on every operation used here because the
only bytes inspected individually are the ASCII `'*'` and `':'`, which
cannot occur inside a multi-byte UTF-8 character.
-/

namespace Watchman

/-! Data model (internal/config, internal/database, internal/jobs) -/

/-- `config.JobsFilter` — include/exclude pattern lists for job names. -/
structure JobsFilter where
  Include : List String
  Exclude : List String
deriving Repr, DecidableEq, Inhabited

/-- `config.ServerConfig` — one monitored SQL Server.  Connection-related
fields (`Host`, `Port`, `Database`, `Auth`, `Options`) only feed the external
SQL driver and are omitted from the embedding. -/
structure ServerConfig where
  Name : String
  Enabled : Bool
  Jobs : JobsFilter
deriving Repr, DecidableEq, Inhabited

/-- `config.ParallelConfig`. -/
structure ParallelConfig where
  Enabled : Bool
  MaxConcurrent : Int
deriving Repr, DecidableEq, Inhabited

/-- `config.MonitoringConfig` (the `ReportStatuses` field is unused by the
monitoring core and omitted). -/
structure MonitoringConfig where
  LookbackHours : Int
  Parallel : ParallelConfig
deriving Repr, DecidableEq, Inhabited

/-- `config.RetryConfig`. -/
structure RetryConfig where
  Enabled : Bool
  MaxAttempts : Int
  DelaySeconds : Int
deriving Repr, DecidableEq, Inhabited

/-- `config.SchedulerConfig` (the timezone only selects the wall-clock frame
and is omitted). -/
structure SchedulerConfig where
  CheckTimes : List String
  Retry : RetryConfig
deriving Repr, DecidableEq, Inhabited

/-- `config.Config`, restricted to the fields the monitoring core reads. -/
structure Config where
  Servers : List ServerConfig
  Scheduler : SchedulerConfig
  Monitoring : MonitoringConfig
deriving Repr, Inhabited

/-- `config.Config.GetEnabledServers` — keeps only servers with `Enabled`. -/
def GetEnabledServers (c : Config) : List ServerConfig :=
  c.Servers.filter (fun srv => srv.Enabled)

/-- `database.FailedJob`.  The derived `FailedAt` timestamp (a `time.Time`
computed by `parseDateTime`) is wall-clock data and is omitted. -/
structure FailedJob where
  ServerName : String
  JobName : String
  RunDate : Int
  RunTime : Int
  Status : Int
  ErrorMessage : String
  Duration : Int
deriving Repr, DecidableEq, Inhabited

/-- `jobs.ServerResult` — per-server outcome of one check.  The Go `Error`
field holds an `error`; here `Error = true` means that field is non-nil. -/
structure ServerResult where
  ServerName : String
  Available : Bool
  FailedJobs : List FailedJob
  Error : Bool
deriving Repr, DecidableEq, Inhabited

/-- `jobs.CheckResult` — the aggregated report of one cycle (`Timestamp` and
`Duration` are wall-clock data and are omitted). -/
structure CheckResult where
  Status : String
  ServersChecked : Nat
  ServersAvailable : Nat
  ServersUnavailable : List String
  FailedJobs : List FailedJob
  Summary : String
deriving Repr, DecidableEq, Inhabited

/-! Finding filter (internal/database/sqlserver.go) -/

/-- `database.matchPattern` on character lists.  Mirrors the Go byte-level
checks: `pattern == "*"`, trailing-`'*'` prefix match
(`name[:len(p)-1] == p[:len(p)-1]` with the length guard, i.e. `isPrefixOf`),
leading-`'*'` suffix match, else exact equality.  Byte length and character
length coincide for every branch test because `'*'` is ASCII. -/
def matchPatternL (name pattern : List Char) : Bool :=
  if pattern = ['*'] then
    true
  else if 1 < pattern.length ∧ pattern.getLast? = some '*' then
    pattern.dropLast.isPrefixOf name
  else if 1 < pattern.length ∧ pattern.head? = some '*' then
    (pattern.drop 1).isSuffixOf name
  else
    decide (name = pattern)

/-- `database.matchPattern` on strings. -/
def matchPattern (name pattern : String) : Bool :=
  matchPatternL name.toList pattern.toList

/-- `database.DB.matchesFilter` — include list first (OR semantics), then
exclude list (any match rejects). -/
def matchesFilter (filter : JobsFilter) (jobName : String) : Bool :=
  if 0 < filter.Include.length then
    if filter.Include.any (fun pattern => matchPattern jobName pattern) then
      filter.Exclude.all (fun pattern => ! matchPattern jobName pattern)
    else
      false
  else
    filter.Exclude.all (fun pattern => ! matchPattern jobName pattern)

/-! Prober oracle (the external SQL Server boundary) -/

/-- Oracle for one server's external behaviour during one cycle:
whether `database.New` succeeds, whether `db.Ping` succeeds, and the raw
rows returned by the failed-jobs query for a given lookback window
(`none` models a query/scan error). -/
structure Prober where
  newOk : Bool
  pingOk : Bool
  rows : Int → Option (List FailedJob)

instance : Inhabited Prober := ⟨⟨true, true, fun _ => some []⟩⟩

/-- `database.DB.QueryFailedJobs` — returns the raw rows with the server's
include/exclude filter applied to each job name (the Go loop `continue`s
past rows failing `matchesFilter`). -/
def QueryFailedJobs (p : Prober) (server : ServerConfig) (lookbackHours : Int) :
    Option (List FailedJob) :=
  (p.rows lookbackHours).map
    (fun rows => rows.filter (fun job => matchesFilter server.Jobs job.JobName))

/-! Per-server check and fan-out (internal/jobs monitor) -/

/-- `jobs.Monitor.checkSingleServer`, instrumented: the second component
records whether `QueryFailedJobs` was invoked for this server.  Mirrors the
Go control flow: `database.New` error → unavailable; `Ping` error →
unavailable; otherwise `Available := true`, then the query either errors
(outcome keeps zero findings) or supplies the filtered jobs. -/
def checkSingleServerT (prober : ServerConfig → Prober) (lookbackHours : Int)
    (server : ServerConfig) : ServerResult × Bool :=
  let p := prober server
  let result : ServerResult :=
    { ServerName := server.Name, Available := false, FailedJobs := [], Error := false }
  if ! p.newOk then
    ({ result with Error := true }, false)
  else if ! p.pingOk then
    ({ result with Error := true }, false)
  else
    match QueryFailedJobs p server lookbackHours with
    | none => ({ result with Available := true, Error := true }, true)
    | some jobs => ({ result with Available := true, FailedJobs := jobs }, true)

/-- `jobs.Monitor.checkSingleServer` — the per-server outcome. -/
def checkSingleServer (prober : ServerConfig → Prober) (lookbackHours : Int)
    (server : ServerConfig) : ServerResult :=
  (checkSingleServerT prober lookbackHours server).1

/-- `jobs.Monitor.checkSequential` — servers checked one by one, in order. -/
def checkSequential (prober : ServerConfig → Prober) (lookbackHours : Int)
    (servers : List ServerConfig) : List ServerResult :=
  servers.map (fun srv => checkSingleServer prober lookbackHours srv)

/-- The fan-out of `checkParallel` as a write schedule: `order` lists the
indices in the order in which the goroutines complete; each goroutine writes
its own slot `results[idx]`.  Slots not yet written hold `none`. -/
def runSchedule (f : Nat → ServerResult) (n : Nat) (order : List Nat) :
    List (Option ServerResult) :=
  order.foldl (fun acc idx => acc.set idx (some (f idx))) (List.replicate n none)

/-- `jobs.Monitor.checkParallel` — goroutine-per-server bounded by a counting
semaphore of capacity `maxConcurrent` (defaulting to 5 when the configured
limit is ≤ 0).  The semaphore bounds how many checks are in flight and so
affects timing only; the value written to slot `idx` is always that server's
`checkSingleServer` outcome, and `wg.Wait()` guarantees every slot is
written before the results are read.  `order` models the completion order;
any permutation of the indices is a possible execution. -/
def checkParallel (maxConcurrentCfg : Int) (prober : ServerConfig → Prober)
    (lookbackHours : Int) (servers : List ServerConfig) (order : List Nat) :
    List ServerResult :=
  let maxConcurrent := if maxConcurrentCfg ≤ 0 then (5 : Int) else maxConcurrentCfg
  let _ := maxConcurrent
  (runSchedule (fun idx => checkSingleServer prober lookbackHours (servers.getD idx default))
      servers.length order).map (fun slot => slot.getD default)

/-! Aggregation (internal/jobs monitor) -/

/-- The `for _, r := range results` loop of `jobs.Monitor.aggregateResults`:
available servers bump `ServersAvailable` and append their findings,
unavailable servers append their name to `ServersUnavailable`. -/
def aggregateLoop (results : List ServerResult) (cr : CheckResult) : CheckResult :=
  match results with
  | [] => cr
  | r :: rest =>
    if r.Available then
      aggregateLoop rest
        { cr with
          ServersAvailable := cr.ServersAvailable + 1
          FailedJobs := cr.FailedJobs ++ r.FailedJobs }
    else
      aggregateLoop rest
        { cr with ServersUnavailable := cr.ServersUnavailable ++ [r.ServerName] }

/-- `jobs.Monitor.generateSummary`.  The Go `serverMap` counts distinct
server names among the failed jobs; `List.eraseDups` gives that count. -/
def generateSummary (cr : CheckResult) : String :=
  if cr.ServersAvailable = 0 ∧ 0 < cr.ServersChecked then
    "All " ++ toString cr.ServersChecked ++ " servers unavailable"
  else if cr.FailedJobs.length = 0 then
    "No failed jobs on " ++ toString cr.ServersAvailable ++ " servers"
  else
    let distinctServers := (cr.FailedJobs.map (fun job => job.ServerName)).eraseDups
    let jobWord := if 1 < cr.FailedJobs.length then "jobs" else "job"
    let serverWord := if 1 < distinctServers.length then "servers" else "server"
    toString cr.FailedJobs.length ++ " failed " ++ jobWord ++ " on " ++
      toString distinctServers.length ++ " " ++ serverWord

/-- `jobs.Monitor.aggregateResults` — builds the report, derives the summary,
then classifies: all-unavailable (with at least one server) → `"error"`,
else any findings → `"failed_jobs"`, else the initial `"success"`. -/
def aggregateResults (results : List ServerResult) : CheckResult :=
  let cr0 : CheckResult :=
    { Status := "success", ServersChecked := results.length, ServersAvailable := 0,
      ServersUnavailable := [], FailedJobs := [], Summary := "" }
  let cr1 := aggregateLoop results cr0
  let cr2 := { cr1 with Summary := generateSummary cr1 }
  if cr2.ServersAvailable = 0 ∧ 0 < cr2.ServersChecked then
    { cr2 with Status := "error" }
  else if 0 < cr2.FailedJobs.length then
    { cr2 with Status := "failed_jobs" }
  else
    cr2

/-- `jobs.Monitor.CheckAll` — the full cycle.  The second component is the
function's Go `error` return, which is nil on every path.  `order` is the
goroutine completion order consumed by the parallel path. -/
def CheckAll (cfg : Config) (prober : ServerConfig → Prober) (order : List Nat) :
    CheckResult × Option String :=
  let servers := GetEnabledServers cfg
  if servers.length = 0 then
    ({ Status := "error", ServersChecked := 0, ServersAvailable := 0,
       ServersUnavailable := [], FailedJobs := [],
       Summary := "No enabled servers configured" }, none)
  else
    let results :=
      if cfg.Monitoring.Parallel.Enabled then
        checkParallel cfg.Monitoring.Parallel.MaxConcurrent prober
          cfg.Monitoring.LookbackHours servers order
      else
        checkSequential prober cfg.Monitoring.LookbackHours servers
    (aggregateResults results, none)

/-! Scheduler (internal/scheduler/scheduler.go) -/

/-- `scheduler.parseTime` — Go `time.Parse("15:04", s)`: a one- or two-digit
hour in `[0,23]`, a literal `':'`, exactly two minute digits in `[0,59]`,
nothing else.  `none` models the parse error. -/
def parseTime (s : String) : Option (Nat × Nat) :=
  let digit (c : Char) : Option Nat :=
    if '0' ≤ c ∧ c ≤ '9' then some (c.toNat - '0'.toNat) else none
  match s.toList with
  | [h1, ':', m1, m2] =>
    match digit h1, digit m1, digit m2 with
    | some h, some ma, some mb =>
      let minute := 10 * ma + mb
      if h ≤ 23 ∧ minute ≤ 59 then some (h, minute) else none
    | _, _, _ => none
  | [h1, h2, ':', m1, m2] =>
    match digit h1, digit h2, digit m1, digit m2 with
    | some ha, some hb, some ma, some mb =>
      let hour := 10 * ha + hb
      let minute := 10 * ma + mb
      if hour ≤ 23 ∧ minute ≤ 59 then some (hour, minute) else none
    | _, _, _, _ => none
  | _ => none

/-- The scheduler's registration state: the daily triggers registered with
gocron (as fire times) and whether `scheduler.Start()` was reached. -/
structure SchedState where
  jobs : List (Nat × Nat)
  started : Bool
deriving Repr, DecidableEq, Inhabited

/-- The `for _, checkTime := range CheckTimes` loop of `Scheduler.Start`:
each valid time registers one trigger; the first invalid time aborts with an
error, keeping the triggers registered so far.  (`gocron.NewJob` cannot fail
for an in-range daily fire time, and the `hour < 0 || minute < 0` guard in
the Go source is unreachable since `time.Parse` already range-checks.) -/
def startLoop (checkTimes : List String) (registered : List (Nat × Nat)) :
    List (Nat × Nat) × Option String :=
  match checkTimes with
  | [] => (registered, none)
  | t :: rest =>
    match parseTime t with
    | none => (registered, some ("invalid check time " ++ t))
    | some (hour, minute) =>
      if hour < 0 ∨ minute < 0 then
        (registered, some "time values cannot be negative")
      else
        startLoop rest (registered ++ [(hour, minute)])

/-- `scheduler.Scheduler.Start` — parse and register every fire time, then
start the gocron scheduler; on any invalid time return the error without
starting. -/
def Start (checkTimes : List String) : SchedState × Option String :=
  match startLoop checkTimes [] with
  | (jobs, some e) => ({ jobs := jobs, started := false }, some e)
  | (jobs, none) => ({ jobs := jobs, started := true }, none)

/-- `scheduler.Scheduler.NextRun`.  `nextOf i` is the oracle for
`jobs[i].NextRun()`: the next wall-clock fire instant (as an abstract `Nat`),
or `none` when that call errors.  Mirrors the Go scan: error with
`"no scheduled jobs"` when nothing is registered, skip erroring jobs, keep
the earliest time, error with `"no upcoming runs scheduled"` when every job
erred. -/
def NextRun (st : SchedState) (nextOf : Nat → Option Nat) : Except String Nat :=
  if st.jobs.length = 0 then
    Except.error "no scheduled jobs"
  else
    let nextRun := (List.range st.jobs.length).foldl
      (fun acc i =>
        match nextOf i with
        | none => acc
        | some next =>
          match acc with
          | none => some next
          | some cur => if next < cur then some next else some cur)
      none
    match nextRun with
    | none => Except.error "no upcoming runs scheduled"
    | some t => Except.ok t

/-- The retry loop of `scheduler.Scheduler.runCheck`, recursing on the number
of remaining permitted attempts (`rem = attempts - i`, so the Go guards
`i < attempts` and `i < attempts-1` become `0 < rem+1` and `0 < rem`).
The handler is an oracle indexed by attempt number (`true` = nil error).
Returns (number of handler invocations so far, whether an attempt
succeeded); the inter-attempt `time.Sleep(delay)` is timing only. -/
def runCheckLoop (handler : Nat → Bool) (enabled : Bool) : Nat → Nat → Nat × Bool
  | i, 0 => (i, false)
  | i, rem + 1 =>
    if handler i then
      (i + 1, true)
    else if enabled ∧ 0 < rem then
      runCheckLoop handler enabled (i + 1) rem
    else
      (i + 1, false)

/-- `scheduler.Scheduler.runCheck` — one trigger invocation: `attempts` is
`MaxAttempts` when retry is enabled, else 1 (Go `int` cast to `Nat`; the
loop never runs for a non-positive value either way). -/
def runCheck (cfg : RetryConfig) (handler : Nat → Bool) : Nat × Bool :=
  let attempts : Int := if cfg.Enabled then cfg.MaxAttempts else 1
  runCheckLoop handler cfg.Enabled 0 attempts.toNat

/-! Helper lemmas: the aggregation loop -/

theorem aggregateLoop_Status (results : List ServerResult) (cr : CheckResult) :
    (aggregateLoop results cr).Status = cr.Status := by
  induction results generalizing cr with
  | nil => rfl
  | cons r rest ih =>
    simp only [aggregateLoop]
    split
    · exact ih _
    · exact ih _

theorem aggregateLoop_ServersChecked (results : List ServerResult) (cr : CheckResult) :
    (aggregateLoop results cr).ServersChecked = cr.ServersChecked := by
  induction results generalizing cr with
  | nil => rfl
  | cons r rest ih =>
    simp only [aggregateLoop]
    split
    · exact ih _
    · exact ih _

theorem aggregateLoop_ServersAvailable (results : List ServerResult) (cr : CheckResult) :
    (aggregateLoop results cr).ServersAvailable
      = cr.ServersAvailable + results.countP (fun r => r.Available) := by
  induction results generalizing cr with
  | nil => simp [aggregateLoop]
  | cons r rest ih =>
    by_cases h : r.Available = true
    · simp only [aggregateLoop, List.countP_cons]
      rw [if_pos h, ih]
      simp [h]
      omega
    · simp only [aggregateLoop, List.countP_cons]
      rw [if_neg h, ih]
      simp [h]

theorem aggregateLoop_FailedJobs (results : List ServerResult) (cr : CheckResult) :
    (aggregateLoop results cr).FailedJobs
      = cr.FailedJobs
        ++ ((results.filter (fun r => r.Available)).map (fun r => r.FailedJobs)).flatten := by
  induction results generalizing cr with
  | nil => simp [aggregateLoop]
  | cons r rest ih =>
    by_cases h : r.Available = true
    · simp only [aggregateLoop, List.filter_cons]
      rw [if_pos h, if_pos h, ih]
      simp [List.append_assoc]
    · simp only [aggregateLoop, List.filter_cons]
      rw [if_neg h, if_neg h, ih]

theorem aggregateLoop_ServersUnavailable (results : List ServerResult) (cr : CheckResult) :
    (aggregateLoop results cr).ServersUnavailable
      = cr.ServersUnavailable
        ++ (results.filter (fun r => ! r.Available)).map (fun r => r.ServerName) := by
  induction results generalizing cr with
  | nil => simp [aggregateLoop]
  | cons r rest ih =>
    by_cases h : r.Available = true
    · simp only [aggregateLoop, List.filter_cons]
      rw [if_pos h, ih]
      simp [h]
    · simp only [aggregateLoop, List.filter_cons]
      rw [if_neg h, ih]
      have hb : (! r.Available) = true := by simp [Bool.eq_false_iff.mpr h]
      simp [hb, List.append_assoc]

/-! Helper lemmas: aggregateResults field characterization -/

theorem aggregateResults_ServersChecked (results : List ServerResult) :
    (aggregateResults results).ServersChecked = results.length := by
  simp only [aggregateResults]
  split
  · simp [aggregateLoop_ServersChecked]
  · split
    · simp [aggregateLoop_ServersChecked]
    · simp [aggregateLoop_ServersChecked]

theorem aggregateResults_ServersAvailable (results : List ServerResult) :
    (aggregateResults results).ServersAvailable = results.countP (fun r => r.Available) := by
  simp only [aggregateResults]
  split
  · simp [aggregateLoop_ServersAvailable]
  · split
    · simp [aggregateLoop_ServersAvailable]
    · simp [aggregateLoop_ServersAvailable]

theorem aggregateResults_FailedJobs (results : List ServerResult) :
    (aggregateResults results).FailedJobs
      = ((results.filter (fun r => r.Available)).map (fun r => r.FailedJobs)).flatten := by
  simp only [aggregateResults]
  split
  · simp [aggregateLoop_FailedJobs]
  · split
    · simp [aggregateLoop_FailedJobs]
    · simp [aggregateLoop_FailedJobs]

theorem aggregateResults_ServersUnavailable (results : List ServerResult) :
    (aggregateResults results).ServersUnavailable
      = (results.filter (fun r => ! r.Available)).map (fun r => r.ServerName) := by
  simp only [aggregateResults]
  split
  · simp [aggregateLoop_ServersUnavailable]
  · split
    · simp [aggregateLoop_ServersUnavailable]
    · simp [aggregateLoop_ServersUnavailable]

theorem aggregateResults_Status (results : List ServerResult) :
    (aggregateResults results).Status =
      if results.countP (fun r => r.Available) = 0 ∧ 0 < results.length then "error"
      else if 0 < (((results.filter (fun r => r.Available)).map
          (fun r => r.FailedJobs)).flatten).length then "failed_jobs"
      else "success" := by
  simp only [aggregateResults]
  simp [aggregateLoop_ServersAvailable, aggregateLoop_ServersChecked,
    aggregateLoop_FailedJobs, aggregateLoop_Status]
  split_ifs <;> rfl

theorem aggregateResults_pos_available_of_findings (results : List ServerResult) :
    (aggregateResults results).FailedJobs ≠ [] →
    0 < (aggregateResults results).ServersAvailable := by
  rw [aggregateResults_FailedJobs, aggregateResults_ServersAvailable]
  intro h
  by_contra h0
  have hA : results.countP (fun r => r.Available) = 0 := by omega
  have hfil : results.filter (fun r => r.Available) = [] :=
    List.filter_eq_nil_iff.mpr (List.countP_eq_zero.mp hA)
  rw [hfil] at h
  simp at h

/-! Claim theorems -/

/-- Claim C1 — the report status is classified in the fixed order: unreachable
fleet (`targetsChecked>0 ∧ targetsReachable=0`) → `"error"`; else non-empty
findings → `"failed_jobs"`; else `"success"`.  Consequently a report with at
least one reachable target and no findings is `"success"`, and a report with
at least one finding is `"failed_jobs"` regardless of how many targets are
unreachable. -/
theorem c1_report_status_classification (results : List ServerResult) :
    ((aggregateResults results).Status =
      if 0 < (aggregateResults results).ServersChecked
          ∧ (aggregateResults results).ServersAvailable = 0 then "error"
      else if (aggregateResults results).FailedJobs ≠ [] then "failed_jobs"
      else "success")
    ∧ (0 < (aggregateResults results).ServersAvailable →
        (aggregateResults results).FailedJobs = [] →
        (aggregateResults results).Status = "success")
    ∧ ((aggregateResults results).FailedJobs ≠ [] →
        (aggregateResults results).Status = "failed_jobs") := by
  refine ⟨?_, ?_, ?_⟩
  · rw [aggregateResults_Status, aggregateResults_ServersChecked,
      aggregateResults_ServersAvailable, aggregateResults_FailedJobs]
    exact if_congr and_comm rfl (if_congr List.length_pos rfl rfl)
  · intro hA hF
    rw [aggregateResults_ServersAvailable] at hA
    rw [aggregateResults_FailedJobs] at hF
    rw [aggregateResults_Status, if_neg (by omega), hF]
    simp
  · intro hF
    have hA := aggregateResults_pos_available_of_findings results hF
    rw [aggregateResults_ServersAvailable] at hA
    rw [aggregateResults_FailedJobs] at hF
    rw [aggregateResults_Status, if_neg (by omega), if_pos (List.length_pos.mpr hF)]

/-- Witness for C1: a single reachable server with one finding yields status
`"failed_jobs"`. -/
theorem c1_report_status_classification_witness :
    (aggregateResults [⟨"S2", true, [⟨"S2", "J1", 0, 0, 0, "", 0⟩], false⟩]).Status
      = "failed_jobs" :=
  (c1_report_status_classification [⟨"S2", true, [⟨"S2", "J1", 0, 0, 0, "", 0⟩], false⟩]).2.2
    (by decide)

/-- Claim C2 — include patterns use OR semantics and are checked first; any
exclude match rejects, even when an include pattern also matches; an empty
include list imposes no restriction; and on the scenario
include=`["ETL_*"]`, exclude=`["ETL_test_*"]` over subjects
`["ETL_Daily","ETL_test_job","Backup_X"]` exactly `"ETL_Daily"` passes. -/
theorem c2_include_exclude_filter (subject : String) (inc exc : List String) :
    (inc ≠ [] → matchesFilter ⟨inc, exc⟩ subject = true →
      inc.any (fun pat => matchPattern subject pat) = true)
    ∧ (exc.any (fun pat => matchPattern subject pat) = true →
      matchesFilter ⟨inc, exc⟩ subject = false)
    ∧ (inc.any (fun pat => matchPattern subject pat) = true →
      exc.all (fun pat => ! matchPattern subject pat) = true →
      matchesFilter ⟨inc, exc⟩ subject = true)
    ∧ (matchesFilter ⟨[], exc⟩ subject = exc.all (fun pat => ! matchPattern subject pat))
    ∧ (["ETL_Daily", "ETL_test_job", "Backup_X"].filter
        (fun s => matchesFilter ⟨["ETL_*"], ["ETL_test_*"]⟩ s) = ["ETL_Daily"]) := by
  refine ⟨?_, ?_, ?_, ?_, by decide⟩
  · intro hne hm
    by_cases hany : inc.any (fun pat => matchPattern subject pat) = true
    · exact hany
    · exfalso
      simp only [matchesFilter] at hm
      rw [if_pos (List.length_pos.mpr hne), if_neg hany] at hm
      exact Bool.false_ne_true hm
  · intro hexc
    have hall : exc.all (fun pat => ! matchPattern subject pat) = false := by
      rcases List.any_eq_true.mp hexc with ⟨pat, hp, hm⟩
      rw [Bool.eq_false_iff]
      intro hcontra
      have := List.all_eq_true.mp hcontra pat hp
      simp [hm] at this
    simp only [matchesFilter]
    split_ifs <;> simp [hall]
  · intro hany hall
    simp only [matchesFilter]
    by_cases h1 : 0 < inc.length
    · rw [if_pos h1, if_pos hany]
      exact hall
    · rw [if_neg h1]
      exact hall
  · simp only [matchesFilter]
    rw [if_neg (by simp)]

/-- Witness for C2: a subject matching both an include and an exclude pattern
is rejected. -/
theorem c2_include_exclude_filter_witness :
    matchesFilter ⟨["ETL_*"], ["ETL_test_*"]⟩ "ETL_test_job" = false :=
  (c2_include_exclude_filter "ETL_test_job" ["ETL_*"] ["ETL_test_*"]).2.1 (by decide)

/-- Claim C9 — `matchPattern` semantics, in the code's branch order: `"*"`
matches everything; a pattern longer than one character ending in `'*'`
matches exactly the subjects having the non-`'*'` portion as a prefix; a
pattern longer than one character starting with `'*'` (and not ending in it)
matches exactly the subjects having the non-`'*'` portion as a suffix;
otherwise — a literal pattern, including the empty one — matching is exact
equality. -/
theorem c9_matchPattern_semantics (s p : List Char) :
    matchPatternL s ['*'] = true
    ∧ (1 < p.length → p.getLast? = some '*' →
        (matchPatternL s p = true ↔ p.dropLast <+: s))
    ∧ (1 < p.length → ¬ p.getLast? = some '*' → p.head? = some '*' →
        (matchPatternL s p = true ↔ p.drop 1 <:+ s))
    ∧ (¬ p = ['*'] → ¬ (1 < p.length ∧ p.getLast? = some '*') →
        ¬ (1 < p.length ∧ p.head? = some '*') →
        (matchPatternL s p = true ↔ s = p)) := by
  refine ⟨by simp [matchPatternL], ?_, ?_, ?_⟩
  · intro h1 h2
    have hne : p ≠ ['*'] := by
      intro he
      rw [he] at h1
      simp at h1
    rw [matchPatternL, if_neg hne, if_pos ⟨h1, h2⟩]
    exact List.isPrefixOf_iff_prefix
  · intro h1 h2 h3
    have hne : p ≠ ['*'] := by
      intro he
      rw [he] at h2
      simp at h2
    rw [matchPatternL, if_neg hne, if_neg (fun hc => h2 hc.2), if_pos ⟨h1, h3⟩]
    exact List.isSuffixOf_iff_suffix
  · intro hne hc1 hc2
    rw [matchPatternL, if_neg hne, if_neg hc1, if_neg hc2]
    simp

/-- Witness for C9: the prefix branch at a concrete subject and pattern. -/
theorem c9_matchPattern_semantics_witness :
    matchPatternL "test_job_1".toList "test_*".toList = true :=
  ((c9_matchPattern_semantics "test_job_1".toList "test_*".toList).2.1
      (by decide) (by decide)).mpr (by decide)

/-! Helper lemmas: the parallel fan-out schedule -/

theorem runSchedule_foldl_getElem? (f : Nat → ServerResult) (order : List Nat)
    (acc : List (Option ServerResult)) (i : Nat) :
    (order.foldl (fun a idx => a.set idx (some (f idx))) acc)[i]? =
      if i ∈ order ∧ i < acc.length then some (some (f i)) else acc[i]? := by
  induction order generalizing acc with
  | nil => simp
  | cons idx rest ih =>
    rw [List.foldl_cons, ih]
    simp only [List.length_set, List.getElem?_set, List.mem_cons]
    by_cases hr : i ∈ rest ∧ i < acc.length
    · rw [if_pos hr, if_pos ⟨Or.inr hr.1, hr.2⟩]
    · rw [if_neg hr]
      by_cases he : idx = i
      · subst he
        by_cases hlen : idx < acc.length
        · rw [if_pos rfl, if_pos hlen, if_pos ⟨Or.inl rfl, hlen⟩]
        · rw [if_pos rfl, if_neg hlen, if_neg (fun hc => hlen hc.2)]
          exact (List.getElem?_eq_none (by omega)).symm
      · rw [if_neg he, if_neg (fun hc => hr ⟨hc.1.resolve_left (fun h => he h.symm), hc.2⟩)]

theorem runSchedule_perm (f : Nat → ServerResult) (n : Nat) (order : List Nat)
    (h : order.Perm (List.range n)) :
    runSchedule f n order = (List.range n).map (fun i => some (f i)) := by
  apply List.ext_getElem?
  intro i
  rw [runSchedule, runSchedule_foldl_getElem?]
  by_cases hi : i < n
  · rw [if_pos ⟨h.mem_iff.mpr (List.mem_range.mpr hi), by simpa using hi⟩,
      List.getElem?_map, List.getElem?_range hi]
    rfl
  · rw [if_neg (fun hc => hi (by simpa using hc.2)),
      List.getElem?_eq_none (by simpa using Nat.le_of_not_lt hi),
      List.getElem?_eq_none (by simpa using Nat.le_of_not_lt hi)]

theorem range_map_getD {α β : Type} (l : List α) (d : α) (g : α → β) :
    (List.range l.length).map (fun i => g (l.getD i d)) = l.map g := by
  induction l with
  | nil => simp
  | cons a t ih =>
    rw [List.length_cons, List.range_succ_eq_map, List.map_cons, List.map_map]
    have hc : ((fun i => g ((a :: t).getD i d)) ∘ Nat.succ) = fun i => g (t.getD i d) := by
      funext i
      simp [List.getD_cons_succ]
    rw [List.getD_cons_zero, hc, ih]
    rfl

theorem checkParallel_eq_checkSequential (limit : Int) (prober : ServerConfig → Prober)
    (lb : Int) (servers : List ServerConfig) (order : List Nat)
    (h : order.Perm (List.range servers.length)) :
    checkParallel limit prober lb servers order = checkSequential prober lb servers := by
  unfold checkParallel
  rw [runSchedule_perm _ _ _ h, List.map_map]
  have hc : ((fun slot => slot.getD default)
        ∘ fun i => some (checkSingleServer prober lb (servers.getD i default)))
      = fun i => checkSingleServer prober lb (servers.getD i default) := by
    funext i
    simp
  rw [hc, range_map_getD]
  rfl

/-- Claim C3 — for any concurrency limit (positive or not) and any completion
order of the goroutines, the parallel fan-out produces exactly the
sequential path's per-server results, hence reports with identical findings
and identical checked/reachable/unreachable values, given identical prober
responses per target. -/
theorem c3_parallel_sequential_equivalence (limit : Int) (prober : ServerConfig → Prober)
    (lb : Int) (servers : List ServerConfig) (order : List Nat)
    (h : order.Perm (List.range servers.length)) :
    checkParallel limit prober lb servers order = checkSequential prober lb servers
    ∧ aggregateResults (checkParallel limit prober lb servers order)
        = aggregateResults (checkSequential prober lb servers) := by
  have he := checkParallel_eq_checkSequential limit prober lb servers order h
  exact ⟨he, by rw [he]⟩

/-- Witness for C3: two servers, a non-positive limit (default 5 substituted)
and reversed completion order give the sequential result. -/
theorem c3_parallel_sequential_equivalence_witness :
    checkParallel (-1) (fun s => ⟨true, s.Name == "A", fun _ => some []⟩) 24
        [⟨"A", true, ⟨[], []⟩⟩, ⟨"B", true, ⟨[], []⟩⟩] [1, 0]
      = checkSequential (fun s => ⟨true, s.Name == "A", fun _ => some []⟩) 24
        [⟨"A", true, ⟨[], []⟩⟩, ⟨"B", true, ⟨[], []⟩⟩] :=
  (c3_parallel_sequential_equivalence (-1) (fun s => ⟨true, s.Name == "A", fun _ => some []⟩)
    24 [⟨"A", true, ⟨[], []⟩⟩, ⟨"B", true, ⟨[], []⟩⟩] [1, 0] (by decide)).1

/-! Helper lemmas: the per-server check and CheckAll -/

theorem checkSingleServer_ServerName (prober : ServerConfig → Prober) (lb : Int)
    (server : ServerConfig) :
    (checkSingleServer prober lb server).ServerName = server.Name := by
  simp only [checkSingleServer, checkSingleServerT]
  split
  · rfl
  · split
    · rfl
    · split <;> rfl

theorem checkSingleServer_Available (prober : ServerConfig → Prober) (lb : Int)
    (server : ServerConfig) :
    (checkSingleServer prober lb server).Available
      = ((prober server).newOk && (prober server).pingOk) := by
  simp only [checkSingleServer, checkSingleServerT]
  split
  · rename_i h
    simp at h
    simp [h]
  · split
    · rename_i h
      simp at h
      simp [h]
    · rename_i h1 h2
      simp at h1 h2
      split <;> simp [h1, h2]

theorem checkSingleServerT_queried (prober : ServerConfig → Prober) (lb : Int)
    (server : ServerConfig) :
    (checkSingleServerT prober lb server).2
      = ((prober server).newOk && (prober server).pingOk) := by
  simp only [checkSingleServerT]
  split
  · rename_i h
    simp at h
    simp [h]
  · split
    · rename_i h
      simp at h
      simp [h]
    · rename_i h1 h2
      simp at h1 h2
      split <;> simp [h1, h2]

theorem checkSingleServer_of_query_error (prober : ServerConfig → Prober) (lb : Int)
    (server : ServerConfig) (hnew : (prober server).newOk = true)
    (hping : (prober server).pingOk = true) (hrows : (prober server).rows lb = none) :
    checkSingleServer prober lb server
      = ⟨server.Name, true, [], true⟩ := by
  simp [checkSingleServer, checkSingleServerT, QueryFailedJobs, hnew, hping, hrows]

theorem CheckAll_err (cfg : Config) (prober : ServerConfig → Prober) (order : List Nat) :
    (CheckAll cfg prober order).2 = none := by
  simp only [CheckAll]
  split
  · rfl
  · rfl

theorem CheckAll_empty (cfg : Config) (prober : ServerConfig → Prober) (order : List Nat)
    (h0 : (GetEnabledServers cfg).length = 0) :
    (CheckAll cfg prober order).1
      = ⟨"error", 0, 0, [], [], "No enabled servers configured"⟩ := by
  simp only [CheckAll]
  rw [if_pos h0]

theorem CheckAll_results (cfg : Config) (prober : ServerConfig → Prober) (order : List Nat)
    (h0 : ¬ (GetEnabledServers cfg).length = 0)
    (horder : cfg.Monitoring.Parallel.Enabled = true →
      order.Perm (List.range (GetEnabledServers cfg).length)) :
    (CheckAll cfg prober order).1
      = aggregateResults
          (checkSequential prober cfg.Monitoring.LookbackHours (GetEnabledServers cfg)) := by
  simp only [CheckAll]
  rw [if_neg h0]
  by_cases hp : cfg.Monitoring.Parallel.Enabled = true
  · rw [if_pos hp, checkParallel_eq_checkSequential _ _ _ _ _ (horder hp)]
  · rw [if_neg hp]
/-- Claim C4 — for every target list handled by a full check cycle, the
report's `targetsChecked` equals the number of (enabled) targets,
`targetsReachable` counts the targets whose reachability probe succeeded,
and `targetsUnreachable` is exactly the list of names of targets whose
probe failed. -/
theorem c4_checkall_aggregation (cfg : Config) (prober : ServerConfig → Prober)
    (order : List Nat) (hnew : ∀ s, (prober s).newOk = true)
    (horder : cfg.Monitoring.Parallel.Enabled = true →
      order.Perm (List.range (GetEnabledServers cfg).length)) :
    ((CheckAll cfg prober order).1.ServersChecked = (GetEnabledServers cfg).length)
    ∧ ((CheckAll cfg prober order).1.ServersAvailable
        = (GetEnabledServers cfg).countP (fun s => (prober s).pingOk))
    ∧ ((CheckAll cfg prober order).1.ServersUnavailable
        = ((GetEnabledServers cfg).filter (fun s => ! (prober s).pingOk)).map
            (fun s => s.Name)) := by
  by_cases h0 : (GetEnabledServers cfg).length = 0
  · have hnil : GetEnabledServers cfg = [] := List.length_eq_zero.mp h0
    rw [CheckAll_empty cfg prober order h0, hnil]
    simp
  · rw [CheckAll_results cfg prober order h0 horder]
    rw [aggregateResults_ServersChecked, aggregateResults_ServersAvailable,
      aggregateResults_ServersUnavailable]
    unfold checkSequential
    refine ⟨List.length_map _ _, ?_, ?_⟩
    · rw [List.countP_map]
      apply List.countP_congr
      intro s _
      simp [Function.comp, checkSingleServer_Available, hnew s]
    · rw [List.filter_map, List.map_map]
      have hf : ∀ s ∈ GetEnabledServers cfg,
          ((fun r => ! r.Available)
            ∘ (fun srv => checkSingleServer prober cfg.Monitoring.LookbackHours srv)) s
          = (fun s => ! (prober s).pingOk) s := by
        intro s _
        simp [Function.comp, checkSingleServer_Available, hnew s]
      rw [List.filter_congr hf]
      apply List.map_congr_left
      intro s _
      simp [Function.comp, checkSingleServer_ServerName]
/-- Witness for C4: two servers, one of which fails its ping, under the
parallel path with reversed completion order. -/
theorem c4_checkall_aggregation_witness :
    (CheckAll ⟨[⟨"A", true, ⟨[], []⟩⟩, ⟨"B", true, ⟨[], []⟩⟩], ⟨["08:00"], ⟨true, 3, 0⟩⟩,
        ⟨24, ⟨true, 0⟩⟩⟩ (fun s => ⟨true, s.Name == "A", fun _ => some []⟩)
      [1, 0]).1.ServersUnavailable = ["B"] := by
  have h := c4_checkall_aggregation
    ⟨[⟨"A", true, ⟨[], []⟩⟩, ⟨"B", true, ⟨[], []⟩⟩], ⟨["08:00"], ⟨true, 3, 0⟩⟩, ⟨24, ⟨true, 0⟩⟩⟩
    (fun s => ⟨true, s.Name == "A", fun _ => some []⟩) [1, 0] (fun _ => rfl) (fun _ => by decide)
  rw [h.2.2]
  decide

/-- Claim C5 — an enabled target whose ping errors is recorded unreachable,
its findings query is never invoked, and with a single such target the
report has status `"error"`, zero reachable targets, the target's name in
`targetsUnreachable`, and still a nil Go error return. -/
theorem c5_unreachable_target (prober : ServerConfig → Prober) (lb : Int)
    (server : ServerConfig) (cfg : Config)
    (hnew : (prober server).newOk = true) (hping : (prober server).pingOk = false)
    (hsrv : cfg.Servers = [server]) (hen : server.Enabled = true) :
    ((checkSingleServer prober lb server).Available = false)
    ∧ ((checkSingleServerT prober lb server).2 = false)
    ∧ ((CheckAll cfg prober [0]).1.Status = "error")
    ∧ ((CheckAll cfg prober [0]).1.ServersAvailable = 0)
    ∧ ((CheckAll cfg prober [0]).1.ServersUnavailable = [server.Name])
    ∧ ((CheckAll cfg prober [0]).2 = none) := by
  have hget : GetEnabledServers cfg = [server] := by
    simp [GetEnabledServers, hsrv, hen]
  have hAv : ∀ lh : Int, (checkSingleServer prober lh server).Available = false := by
    intro lh
    rw [checkSingleServer_Available, hnew, hping]
    rfl
  have h0 : ¬ (GetEnabledServers cfg).length = 0 := by
    rw [hget]
    simp
  have horder : cfg.Monitoring.Parallel.Enabled = true →
      ([0] : List Nat).Perm (List.range (GetEnabledServers cfg).length) := by
    intro _
    rw [hget]
    exact List.Perm.refl _
  have hseq : checkSequential prober cfg.Monitoring.LookbackHours [server]
      = [checkSingleServer prober cfg.Monitoring.LookbackHours server] := rfl
  refine ⟨hAv lb, ?_, ?_, ?_, ?_, CheckAll_err cfg prober [0]⟩
  · rw [checkSingleServerT_queried, hnew, hping]
    rfl
  · rw [CheckAll_results cfg prober [0] h0 horder, hget, hseq, aggregateResults_Status]
    rw [if_pos ⟨by simp [List.countP_cons, hAv], by simp⟩]
  · rw [CheckAll_results cfg prober [0] h0 horder, hget, hseq,
      aggregateResults_ServersAvailable]
    simp [List.countP_cons, hAv]
  · rw [CheckAll_results cfg prober [0] h0 horder, hget, hseq,
      aggregateResults_ServersUnavailable]
    simp [List.filter_cons, hAv, checkSingleServer_ServerName]

/-- Witness for C5: a single enabled server whose ping fails. -/
theorem c5_unreachable_target_witness :
    ((CheckAll ⟨[⟨"S1", true, ⟨[], []⟩⟩], ⟨["08:00"], ⟨true, 3, 0⟩⟩, ⟨24, ⟨false, 1⟩⟩⟩
        (fun _ => ⟨true, false, fun _ => some []⟩) [0]).1.Status = "error")
    ∧ ((CheckAll ⟨[⟨"S1", true, ⟨[], []⟩⟩], ⟨["08:00"], ⟨true, 3, 0⟩⟩, ⟨24, ⟨false, 1⟩⟩⟩
        (fun _ => ⟨true, false, fun _ => some []⟩) [0]).1.ServersUnavailable = ["S1"]) :=
  ⟨(c5_unreachable_target (fun _ => ⟨true, false, fun _ => some []⟩) 24 ⟨"S1", true, ⟨[], []⟩⟩
      ⟨[⟨"S1", true, ⟨[], []⟩⟩], ⟨["08:00"], ⟨true, 3, 0⟩⟩, ⟨24, ⟨false, 1⟩⟩⟩
      rfl rfl rfl rfl).2.2.1,
   (c5_unreachable_target (fun _ => ⟨true, false, fun _ => some []⟩) 24 ⟨"S1", true, ⟨[], []⟩⟩
      ⟨[⟨"S1", true, ⟨[], []⟩⟩], ⟨["08:00"], ⟨true, 3, 0⟩⟩, ⟨24, ⟨false, 1⟩⟩⟩
      rfl rfl rfl rfl).2.2.2.2.1⟩

/-- Claim C8 — `CheckAll` always returns a nil Go error: an empty or fully
disabled target list yields a report with status `"error"` and the
no-targets summary, and a fully unreachable fleet yields status `"error"`,
all communicated only through the report. -/
theorem c8_degraded_reports_not_errors (cfg : Config) (prober : ServerConfig → Prober)
    (order : List Nat) :
    ((CheckAll cfg prober order).2 = none)
    ∧ (GetEnabledServers cfg = [] →
        (CheckAll cfg prober order).1.Status = "error"
        ∧ (CheckAll cfg prober order).1.Summary = "No enabled servers configured")
    ∧ ((cfg.Monitoring.Parallel.Enabled = true →
          order.Perm (List.range (GetEnabledServers cfg).length)) →
        GetEnabledServers cfg ≠ [] →
        (∀ s ∈ GetEnabledServers cfg, (prober s).pingOk = false) →
        (CheckAll cfg prober order).1.Status = "error") := by
  refine ⟨CheckAll_err cfg prober order, ?_, ?_⟩
  · intro h
    have h0 : (GetEnabledServers cfg).length = 0 := by
      rw [h]
      rfl
    rw [CheckAll_empty cfg prober order h0]
    exact ⟨rfl, rfl⟩
  · intro horder hne hall
    have h0 : ¬ (GetEnabledServers cfg).length = 0 := by
      simpa [List.length_eq_zero] using hne
    rw [CheckAll_results cfg prober order h0 horder, aggregateResults_Status]
    have hcount : (checkSequential prober cfg.Monitoring.LookbackHours
        (GetEnabledServers cfg)).countP (fun r => r.Available) = 0 := by
      unfold checkSequential
      rw [List.countP_map]
      apply List.countP_eq_zero.mpr
      intro s hs
      simp [Function.comp, checkSingleServer_Available, hall s hs]
    have hlen : 0 < (checkSequential prober cfg.Monitoring.LookbackHours
        (GetEnabledServers cfg)).length := by
      unfold checkSequential
      rw [List.length_map]
      exact List.length_pos.mpr hne
    rw [if_pos ⟨hcount, hlen⟩]

/-- Witness for C8: a configuration with no servers gives an error-status
report and a nil error return. -/
theorem c8_degraded_reports_not_errors_witness :
    ((CheckAll ⟨[], ⟨["08:00"], ⟨true, 3, 0⟩⟩, ⟨24, ⟨true, 5⟩⟩⟩ (fun _ => default) []).1.Status
      = "error")
    ∧ ((CheckAll ⟨[], ⟨["08:00"], ⟨true, 3, 0⟩⟩, ⟨24, ⟨true, 5⟩⟩⟩ (fun _ => default) []).2
      = none) :=
  ⟨((c8_degraded_reports_not_errors ⟨[], ⟨["08:00"], ⟨true, 3, 0⟩⟩, ⟨24, ⟨true, 5⟩⟩⟩
      (fun _ => default) []).2.1 (by decide)).1,
   (c8_degraded_reports_not_errors ⟨[], ⟨["08:00"], ⟨true, 3, 0⟩⟩, ⟨24, ⟨true, 5⟩⟩⟩
      (fun _ => default) []).1⟩

/-- Claim C10 — a target whose ping succeeds but whose findings query errors
is still recorded reachable with zero findings (name not added to
`targetsUnreachable`), so a cycle in which every fetch fails after
successful pings reports status `"success"`. -/
theorem c10_query_error_still_reachable (prober : ServerConfig → Prober) (lb : Int)
    (server : ServerConfig) (hnew : (prober server).newOk = true)
    (hping : (prober server).pingOk = true) (hrows : (prober server).rows lb = none) :
    ((checkSingleServer prober lb server).Available = true)
    ∧ ((checkSingleServer prober lb server).FailedJobs = [])
    ∧ ((checkSingleServer prober lb server).Error = true)
    ∧ (∀ (cfg : Config) (order : List Nat),
        (cfg.Monitoring.Parallel.Enabled = true →
          order.Perm (List.range (GetEnabledServers cfg).length)) →
        GetEnabledServers cfg ≠ [] →
        (∀ s ∈ GetEnabledServers cfg, (prober s).newOk = true ∧ (prober s).pingOk = true
          ∧ (prober s).rows cfg.Monitoring.LookbackHours = none) →
        (CheckAll cfg prober order).1.Status = "success") := by
  have hone := checkSingleServer_of_query_error prober lb server hnew hping hrows
  refine ⟨by rw [hone], by rw [hone], by rw [hone], ?_⟩
  intro cfg order horder hne hall
  have h0 : ¬ (GetEnabledServers cfg).length = 0 := by
    simpa [List.length_eq_zero] using hne
  rw [CheckAll_results cfg prober order h0 horder, aggregateResults_Status]
  have hav : ∀ s ∈ GetEnabledServers cfg,
      checkSingleServer prober cfg.Monitoring.LookbackHours s
        = ⟨s.Name, true, [], true⟩ := fun s hs =>
    checkSingleServer_of_query_error prober _ s (hall s hs).1 (hall s hs).2.1 (hall s hs).2.2
  have hcount : (checkSequential prober cfg.Monitoring.LookbackHours
      (GetEnabledServers cfg)).countP (fun r => r.Available)
        = (GetEnabledServers cfg).length := by
    unfold checkSequential
    rw [List.countP_map]
    apply List.countP_eq_length.mpr
    intro s hs
    simp [Function.comp, hav s hs]
  have hfirst : ¬ ((checkSequential prober cfg.Monitoring.LookbackHours
      (GetEnabledServers cfg)).countP (fun r => r.Available) = 0
      ∧ 0 < (checkSequential prober cfg.Monitoring.LookbackHours
        (GetEnabledServers cfg)).length) := by
    rw [hcount]
    intro hc
    exact hne (List.length_eq_zero.mp hc.1)
  rw [if_neg hfirst]
  have hfj : (((checkSequential prober cfg.Monitoring.LookbackHours
      (GetEnabledServers cfg)).filter (fun r => r.Available)).map
        (fun r => r.FailedJobs)).flatten = [] := by
    apply List.flatten_eq_nil_iff.mpr
    intro l hl
    rw [List.mem_map] at hl
    obtain ⟨r, hr, hrl⟩ := hl
    rw [List.mem_filter] at hr
    obtain ⟨hrmem, _⟩ := hr
    unfold checkSequential at hrmem
    rw [List.mem_map] at hrmem
    obtain ⟨s, hs, hsr⟩ := hrmem
    rw [← hrl, ← hsr, hav s hs]
  rw [if_neg (by rw [hfj]; simp)]
/-- Witness for C10: one server, ping ok, query failing, cycle status is
`"success"`. -/
theorem c10_query_error_still_reachable_witness :
    (CheckAll ⟨[⟨"S1", true, ⟨[], []⟩⟩], ⟨["08:00"], ⟨true, 3, 0⟩⟩, ⟨24, ⟨false, 1⟩⟩⟩
        (fun _ => ⟨true, true, fun _ => none⟩) [0]).1.Status = "success" :=
  (c10_query_error_still_reachable (fun _ => ⟨true, true, fun _ => none⟩) 24
      ⟨"S1", true, ⟨[], []⟩⟩ rfl rfl rfl).2.2.2
    ⟨[⟨"S1", true, ⟨[], []⟩⟩], ⟨["08:00"], ⟨true, 3, 0⟩⟩, ⟨24, ⟨false, 1⟩⟩⟩ [0]
    (by decide) (by decide) (fun s _ => ⟨rfl, rfl, rfl⟩)

/-! Helper lemmas: the scheduler retry loop and Start -/

theorem runCheckLoop_calls_le (handler : Nat → Bool) (enabled : Bool) :
    ∀ rem i, (runCheckLoop handler enabled i rem).1 ≤ i + rem := by
  intro rem
  induction rem with
  | zero =>
    intro i
    simp [runCheckLoop]
  | succ rem ih =>
    intro i
    simp only [runCheckLoop]
    split_ifs with h1 h2
    · simp
    · have := ih (i + 1)
      omega
    · omega

theorem runCheckLoop_first_success (handler : Nat → Bool) :
    ∀ rem i k, i ≤ k → k < i + rem →
      (∀ j, i ≤ j → j < k → handler j = false) → handler k = true →
      runCheckLoop handler true i rem = (k + 1, true) := by
  intro rem
  induction rem with
  | zero =>
    intro i k h1 h2
    omega
  | succ rem ih =>
    intro i k hik hk hfail hsucc
    simp only [runCheckLoop]
    by_cases hie : i = k
    · subst hie
      rw [if_pos hsucc]
    · have hlt : i < k := lt_of_le_of_ne hik hie
      have hfi : handler i = false := hfail i le_rfl hlt
      rw [if_neg (by simp [hfi]), if_pos ⟨by simp, by omega⟩]
      exact ih (i + 1) k (by omega) (by omega) (fun j hj hjk => hfail j (by omega) hjk) hsucc

/-- Claim C6 — each trigger invocation calls the handler at most
`maxAttempts` times (exactly once when retry is disabled), stopping at the
first attempt that returns no error; with retry enabled, `maxAttempts = 3`
and a handler failing twice then succeeding, the handler runs exactly 3
times.  The inter-attempt delay is timing-only and outside the embedding. -/
theorem c6_retry_loop (cfg : RetryConfig) (handler : Nat → Bool) :
    ((runCheck cfg handler).1 ≤ (if cfg.Enabled then cfg.MaxAttempts.toNat else 1))
    ∧ (cfg.Enabled = false → runCheck cfg handler = (1, handler 0))
    ∧ (∀ k, cfg.Enabled = true → (∀ j, j < k → handler j = false) → handler k = true →
        k < cfg.MaxAttempts.toNat → runCheck cfg handler = (k + 1, true))
    ∧ runCheck ⟨true, 3, 0⟩ (fun i => decide (2 ≤ i)) = (3, true) := by
  refine ⟨?_, ?_, ?_, by decide⟩
  · cases hE : cfg.Enabled
    · simp only [runCheck, hE, if_false]
      simpa using runCheckLoop_calls_le handler false (1 : Int).toNat 0
    · simp only [runCheck, hE, if_true]
      simpa using runCheckLoop_calls_le handler true cfg.MaxAttempts.toNat 0
  · intro hE
    cases hh : handler 0
    · simp [runCheck, hE, runCheckLoop, hh]
    · simp [runCheck, hE, runCheckLoop, hh]
  · intro k hE hfail hsucc hk
    simp only [runCheck, hE, if_true]
    exact runCheckLoop_first_success handler cfg.MaxAttempts.toNat 0 k (Nat.zero_le k)
      (by omega) (fun j _ hjk => hfail j hjk) hsucc

theorem c6_retry_loop_witness : runCheck ⟨true, 3, 0⟩ (fun i => decide (2 ≤ i)) = (3, true) :=
  (c6_retry_loop ⟨true, 3, 0⟩ (fun i => decide (2 ≤ i))).2.2.1 2 rfl
    (fun j hj => decide_eq_false_iff_not.mpr (by omega)) (by decide) (by decide)
theorem startLoop_isSome_of_bad (checkTimes : List String) (t : String) :
    ∀ registered, t ∈ checkTimes → parseTime t = none →
      (startLoop checkTimes registered).2.isSome = true := by
  induction checkTimes with
  | nil =>
    intro acc h hbad
    simp at h
  | cons t0 rest ih =>
    intro acc hmem hbad
    simp only [startLoop]
    cases hp : parseTime t0 with
    | none => simp
    | some v =>
      obtain ⟨h, m⟩ := v
      rcases List.mem_cons.mp hmem with he | hr
      · subst he
        rw [hp] at hbad
        cases hbad
      · show ((if h < 0 ∨ m < 0 then (acc, some "time values cannot be negative")
            else startLoop rest (acc ++ [(h, m)])).2.isSome = true)
        rw [if_neg (by omega)]
        exact ih (acc ++ [(h, m)]) hr hbad

theorem Start_of_bad (checkTimes : List String) (t : String) (hmem : t ∈ checkTimes)
    (hbad : parseTime t = none) :
    (Start checkTimes).2.isSome = true ∧ (Start checkTimes).1.started = false := by
  have h := startLoop_isSome_of_bad checkTimes t [] hmem hbad
  unfold Start
  rcases heq : startLoop checkTimes [] with ⟨jobs, err⟩
  rw [heq] at h
  cases err with
  | none => simp at h
  | some e => exact ⟨rfl, rfl⟩

theorem parseTime_range (s : String) (h m : Nat) :
    parseTime s = some (h, m) → h ≤ 23 ∧ m ≤ 59 := by
  intro hp
  simp only [parseTime] at hp
  split at hp
  · split at hp
    · split at hp
      · rename_i hc
        simp only [Option.some.injEq, Prod.mk.injEq] at hp
        omega
      · cases hp
    · cases hp
  · split at hp
    · split at hp
      · rename_i hc
        simp only [Option.some.injEq, Prod.mk.injEq] at hp
        omega
      · cases hp
    · cases hp
  · cases hp

theorem NextRun_no_jobs (st : SchedState) (nextOf : Nat → Option Nat) (h : st.jobs = []) :
    NextRun st nextOf = Except.error "no scheduled jobs" := by
  simp [NextRun, h]
/-- Claim C7 — `Scheduler.Start` returns a configuration error and never
starts the scheduler when any fire time is malformed or out of range (every
successfully parsed time has hour ≤ 23 and minute ≤ 59); with the single
fire time `"25:00"` it registers no trigger and a subsequent `NextRun`
fails with `"no scheduled jobs"`. -/
theorem c7_start_rejects_invalid_times (checkTimes : List String) (t : String)
    (hmem : t ∈ checkTimes) (hbad : parseTime t = none) :
    ((Start checkTimes).2.isSome = true)
    ∧ ((Start checkTimes).1.started = false)
    ∧ (∀ s h m, parseTime s = some (h, m) → h ≤ 23 ∧ m ≤ 59)
    ∧ (parseTime "25:00" = none)
    ∧ (Start ["25:00"] = (⟨[], false⟩, some "invalid check time 25:00"))
    ∧ (∀ nextOf, NextRun (Start ["25:00"]).1 nextOf = Except.error "no scheduled jobs") :=
  ⟨(Start_of_bad checkTimes t hmem hbad).1, (Start_of_bad checkTimes t hmem hbad).2,
    parseTime_range, by decide, by decide,
    fun nextOf => NextRun_no_jobs (Start ["25:00"]).1 nextOf (by decide)⟩

theorem c7_start_rejects_invalid_times_witness :
    (Start ["25:00"]).2.isSome = true ∧ (Start ["25:00"]).1.started = false :=
  ⟨(c7_start_rejects_invalid_times ["25:00"] "25:00" (by decide) (by decide)).1,
   (c7_start_rejects_invalid_times ["25:00"] "25:00" (by decide) (by decide)).2.1⟩

end Watchman
